import Mathlib

/-!
Verification of the La Haute Borne data-loading pipeline
(`dashboard/backend/data_loader.py`) against its specification.

The SCADA cleaning chain (`_clean_scada`), the reanalysis loading blocks of
`load_plant_data`, and the archive-extraction helper (`_extract_data`) are
embedded shallowly: a pandas `DataFrame` becomes a `List` of records, float
columns that may hold `NaN` become `Option ℚ`, and timestamps become `Nat`
indices. Library functions that the loader calls but whose code is not part
of the sources (`openoa.utils.filters.unresponsive_flag`,
`openoa.utils.unit_conversion.convert_power_to_energy`, the `PlantData`
validator) are modelled from the specification, as marked in their
doc comments.
-/

set_option autoImplicit false

namespace OpenOA

/-- One row of the SCADA frame read from `la-haute-borne-data-2014-2015.csv`.
`Date_time` (after time normalization) is modelled as a `Nat` sample index;
float sensor columns are `Option ℚ`, with `none` standing for pandas `NaN`.
The columns are those touched by `_clean_scada`: `Ba_avg` pitch, `P_avg`
power, `Ws_avg` wind speed, `Va_avg` vane angle, `Ot_avg` outdoor
temperature, `Ya_avg` yaw angle, `Wa_avg` wind direction, plus the derived
`energy_kwh` column (absent from the raw file, hence `none` on input). -/
structure ScadaRow where
  date_time : Nat
  wind_turbine_name : String
  ba_avg : Option ℚ
  p_avg : Option ℚ
  ws_avg : Option ℚ
  va_avg : Option ℚ
  ot_avg : Option ℚ
  ya_avg : Option ℚ
  wa_avg : Option ℚ
  energy_kwh : Option ℚ
  deriving DecidableEq, Repr

/-- The uniqueness key of `drop_duplicates(subset=["Date_time", "Wind_turbine_name"])`. -/
def scadaKey (r : ScadaRow) : Nat × String :=
  (r.date_time, r.wind_turbine_name)

/-- Worker for `drop_duplicates`: keep a record only when its key has not
been seen in an earlier record. -/
def dedupGo {α κ : Type} [DecidableEq κ] (key : α → κ) : List κ → List α → List α
  | _, [] => []
  | seen, x :: xs =>
    if key x ∈ seen then dedupGo key seen xs
    else x :: dedupGo key (key x :: seen) xs

/-- Pandas `drop_duplicates(subset=key, keep="first")`
(`data_loader.py` line 44): retain the first record of each key, in input
order. -/
def drop_duplicates {α κ : Type} [DecidableEq κ] (key : α → κ) (xs : List α) : List α :=
  dedupGo key [] xs

/-- The boolean mask of line 47, `(Ot_avg >= -15.0) & (Ot_avg <= 45.0)`,
on one row. A missing (`NaN`) temperature satisfies neither comparison,
so the mask is `false` for it. -/
def otInRange (r : ScadaRow) : Bool :=
  match r.ot_avg with
  | some t => decide (-15 ≤ t) && decide (t ≤ 45)
  | none => false

/-- Line 47, `scada_df[(scada_df["Ot_avg"] >= -15.0) & (scada_df["Ot_avg"] <= 45.0)]`:
boolean-mask row selection, which keeps exactly the rows whose
temperature reading exists and lies in `[-15, 45]` and removes the other
rows wholly. -/
def rangeFilterOt (rows : List ScadaRow) : List ScadaRow :=
  rows.filter otInRange

/-- Value equality as seen by the stuck-sensor detector: two samples count
as an unchanged reading only when both are present and bit-identical; a
missing sample (`NaN`) never repeats a value. -/
def eqVal : Option ℚ → Option ℚ → Bool
  | some a, some b => decide (a = b)
  | _, _ => false

/-- The window test `allEqBy eq xs`: true when every sample of `xs` equals the first
one under `eq`. -/
def allEqBy {α : Type} (eq : α → α → Bool) : List α → Bool
  | [] => true
  | a :: l => l.all (fun b => eq a b)

/-- A full window of `w` consecutive samples starting at `j` exists and is
constant. -/
def constWindow {α : Type} (eq : α → α → Bool) (xs : List α) (j w : Nat) : Bool :=
  decide (j + w ≤ xs.length) && allEqBy eq ((xs.drop j).take w)

/-- Position `i` is flagged: it lies inside some full constant window of
length `w` (equivalently, the value is unchanged across at least `w`
consecutive samples ending somewhere at or after `i` within the run, and
every position of a flagged run is marked). -/
def flaggedAt {α : Type} (eq : α → α → Bool) (w : Nat) (xs : List α) (i : Nat) : Bool :=
  (List.range xs.length).any fun j =>
    constWindow eq xs j w && decide (j ≤ i) && decide (i < j + w)

/-- Modelled from the spec: `openoa.utils.filters.unresponsive_flag` is not
part of the sources, only its call sites in `_clean_scada` are. Per §4.4 of
the specification, per target signal the detector scans in order with a
sliding window of minimum length `w`; a position is flagged iff the value
is constant (bit-identical, not merely close) across at least `w`
consecutive samples ending at that position, and once flagged all positions
within that run are marked; only full windows count, so the first `w-1`
samples are never flagged solely by boundary effects. The result is one
boolean per input position. -/
def unresponsive_flag {α : Type} (eq : α → α → Bool) (w : Nat) (xs : List α) : List Bool :=
  (List.range xs.length).map (flaggedAt eq w xs)

/-- The assignment of line 55: set every column of `sensor_cols`
(`Ba_avg, P_avg, Ws_avg, Va_avg, Ot_avg, Ya_avg, Wa_avg`) to `NaN` on a
flagged row. -/
def nullSensorCols (r : ScadaRow) : ScadaRow :=
  { r with ba_avg := none, p_avg := none, ws_avg := none, va_avg := none,
           ot_avg := none, ya_avg := none, wa_avg := none }

/-- The assignment of line 57: set only `Ot_avg` to `NaN` on a flagged row. -/
def nullOt (r : ScadaRow) : ScadaRow :=
  { r with ot_avg := none }

/-- Lines 54-55 for one turbine: flag positions with the short-window
(`w = 3`) detector on `Va_avg` and null the whole `sensor_cols` group
there. -/
def cleanVaStep (rows : List ScadaRow) : List ScadaRow :=
  List.zipWith (fun r b => if b then nullSensorCols r else r) rows
    (unresponsive_flag eqVal 3 (rows.map (·.va_avg)))

/-- Lines 56-57 for one turbine: flag positions with the long-window
(`w = 20`) detector on `Ot_avg` (as it stands after the first step) and
null only `Ot_avg` there. -/
def cleanOtStep (rows : List ScadaRow) : List ScadaRow :=
  List.zipWith (fun r b => if b then nullOt r else r) rows
    (unresponsive_flag eqVal 20 (rows.map (·.ot_avg)))

/-- The body of the per-turbine loop (lines 52-57) on one turbine's rows:
the vane-angle step runs first, the temperature step second on its
output. -/
def cleanTurbine (rows : List ScadaRow) : List ScadaRow :=
  cleanOtStep (cleanVaStep rows)

/-- Line 50, `scada_df.Wind_turbine_name.unique()`: turbine ids in order
of first appearance. -/
def turbineIds (rows : List ScadaRow) : List String :=
  drop_duplicates id (rows.map (·.wind_turbine_name))

/-- Write a transformed subsequence back over the positions selected by
`p`, keeping every other row in place. -/
def spliceBack {α : Type} (p : α → Bool) : List α → List α → List α
  | [], _ => []
  | r :: rs, sub =>
    if p r then
      match sub with
      | s :: ss => s :: spliceBack p rs ss
      | [] => r :: spliceBack p rs []
    else r :: spliceBack p rs sub

/-- Apply `f` to the subsequence of rows satisfying `p` (the `.loc[ix_turbine]`
view), leaving all other rows untouched. -/
def applySub {α : Type} (p : α → Bool) (f : List α → List α) (rows : List α) : List α :=
  spliceBack p rows (f (rows.filter p))

/-- The whole loop of lines 52-57: for each turbine id in order, rewrite
that turbine's rows with `cleanTurbine`. Rows of distinct turbines never
interact. -/
def cleanStuck (rows : List ScadaRow) : List ScadaRow :=
  (turbineIds rows).foldl
    (fun acc t => applySub (fun r => r.wind_turbine_name == t) cleanTurbine acc) rows

/-- Lines 60-62: `Ba_avg % 360` (pandas float modulus, sign of the
divisor, hence a value in `[0, 360)`), then subtract `360` from entries
greater than `180`. -/
def normAngle (x : ℚ) : ℚ :=
  let y := x - 360 * ⌊x / 360⌋
  if y > 180 then y - 360 else y

/-- The pitch-normalization stage applied to the frame: `NaN` entries pass
through (`NaN % 360` is `NaN`, which is not `> 180`). -/
def normalizeBa (rows : List ScadaRow) : List ScadaRow :=
  rows.map fun r => { r with ba_avg := r.ba_avg.map normAngle }

/-- Modelled from the spec:
`openoa.utils.unit_conversion.convert_power_to_energy` is not part of the
sources, only its call site at line 65 is. Per §4.6 of the specification,
interval energy is instantaneous average power times the interval's fixed
duration in consistent units; the `"10min"` SCADA cadence supplies a
duration of `1/6` hour, so power in watts becomes energy in watt-hours. -/
def convert_power_to_energy (power sample_rate_hours : ℚ) : ℚ :=
  power * sample_rate_hours

/-- The fixed `scada_freq = "10min"` cadence as a duration in hours. -/
def scadaFreqHours : ℚ := 1 / 6

/-- Line 65: `energy_kwh = convert_power_to_energy(P_avg * 1000, "10min") / 1000`,
the per-row energy value for an average power reading in kW. -/
def energyKwhOfPower (p : ℚ) : ℚ :=
  convert_power_to_energy (p * 1000) scadaFreqHours / 1000

/-- The energy stage applied to the frame: a `NaN` power yields a `NaN`
energy. -/
def addEnergy (rows : List ScadaRow) : List ScadaRow :=
  rows.map fun r => { r with energy_kwh := r.p_avg.map energyKwhOfPower }

/-- `_clean_scada` after timestamp parsing: deduplicate on
`(Date_time, Wind_turbine_name)`, drop rows with out-of-range temperature,
run the two stuck-sensor passes per turbine, normalize pitch, and append
the energy column (lines 44-65). -/
def clean_scada (rows : List ScadaRow) : List ScadaRow :=
  addEnergy (normalizeBa (cleanStuck (rangeFilterOt (drop_duplicates scadaKey rows))))

/-- One raw row of a reanalysis csv after timestamp parsing: the timestamp
as an hour index and the two horizontal wind-vector components (`u_50/v_50`
for MERRA2, `u_100/v_100` for ERA5). -/
structure ReRow where
  datetime : Nat
  u_comp : Option ℚ
  v_comp : Option ℚ
  deriving DecidableEq, Repr

/-- A reanalysis row after the derived wind-direction column is added. -/
structure ReRowD where
  datetime : Nat
  u_comp : Option ℚ
  v_comp : Option ℚ
  winddirection_deg : Option ℚ
  deriving DecidableEq, Repr

/-- Line 100, `set_index(DatetimeIndex(datetime)).asfreq("1h")`:
reindex onto the regular hourly grid running from the first recorded
timestamp to the last; a grid hour present in the input keeps its row, a
missing grid hour becomes a fresh row whose feature values are `NaN`. -/
def asfreq1h : List ReRow → List ReRow
  | [] => []
  | r :: rs =>
    let t0 := r.datetime
    let t1 := (List.getLastD rs r).datetime
    (List.range (t1 + 1 - t0)).map fun k =>
      match (r :: rs).find? (fun x => x.datetime == t0 + k) with
      | some x => x
      | none => { datetime := t0 + k, u_comp := none, v_comp := none }

/-- The `compute_wind_direction` stage (lines 93 and 102-104), with the
direction function itself a parameter `wd`: the loader only attaches
`wd u v` row by row. -/
def addWindDirection (wd : Option ℚ → Option ℚ → Option ℚ)
    (rows : List ReRow) : List ReRowD :=
  rows.map fun r =>
    { datetime := r.datetime, u_comp := r.u_comp, v_comp := r.v_comp,
      winddirection_deg := wd r.u_comp r.v_comp }

/-- The MERRA2 block of `load_plant_data` (lines 91-94): parse timestamps
and attach the wind direction. No reindexing of the time axis happens on
this path. -/
def load_merra2 (wd : Option ℚ → Option ℚ → Option ℚ)
    (rows : List ReRow) : List ReRowD :=
  addWindDirection wd rows

/-- The ERA5 block of `load_plant_data` (lines 97-105): regularize the
time axis with `asfreq("1h")`, then attach the wind direction to the
reindexed frame. -/
def load_era5 (wd : Option ℚ → Option ℚ → Option ℚ)
    (rows : List ReRow) : List ReRowD :=
  addWindDirection wd (asfreq1h rows)

/-- The two terminal failures of the pipeline, per §4.9 of the
specification: a schema violation naming the offending field, or an entity
reconciliation failure naming the offending asset id. -/
inductive PlantDataError where
  | schemaViolation (field : String)
  | entityReconciliationError (asset_id : String)
  deriving DecidableEq, Repr

/-- Modelled from the spec: the `PlantData` conformance validator invoked
at lines 112-120 is not part of the sources. Per §3 and §4.9 of the
specification, every asset id referenced by the SCADA stream must exist in
the asset table; the first SCADA turbine id missing from the asset table is
reported as an `EntityReconciliationError` naming that id. -/
def reconcileEntities (scadaIds assetIds : List String) :
    Except PlantDataError Unit :=
  match scadaIds.find? (fun s => decide (s ∉ assetIds)) with
  | some missing => Except.error (PlantDataError.entityReconciliationError missing)
  | none => Except.ok ()

/-- Modelled from the spec: the validating `PlantData` constructor. On
success it assembles the conformed dataset from the cleaned stream and the
asset table; on failure it returns one of the two terminal errors and no
dataset at all. -/
def validatePlant (scada : List ScadaRow) (assetIds : List String) :
    Except PlantDataError (List ScadaRow × List String) :=
  match reconcileEntities (scada.map (·.wind_turbine_name)) assetIds with
  | Except.error e => Except.error e
  | Except.ok _ => Except.ok (scada, assetIds)

/-- The pipeline `load_plant_data` restricted to the SCADA path: clean the raw stream,
then run the validating constructor against the asset table. Every stage
before the validator is a total transform, so the only way the pipeline
fails is by returning one of the validator's two errors. -/
def load_plant_data (raw : List ScadaRow) (assetIds : List String) :
    Except PlantDataError (List ScadaRow × List String) :=
  validatePlant (clean_scada raw) assetIds

/-- The state `_extract_data` acts on: whether the extraction directory
exists, its contents, and the contents of the sibling zip archive. -/
structure FileSystem where
  dirExists : Bool
  dirContents : List String
  zipContents : List String
  deriving DecidableEq, Repr

/-- Lines 31-35, `_extract_data`: when the directory already exists,
nothing happens; otherwise the archive is extracted into a fresh
directory. -/
def extract_data (fs : FileSystem) : FileSystem :=
  if fs.dirExists then fs
  else { dirExists := true, dirContents := fs.zipContents, zipContents := fs.zipContents }

/-! ## Concrete streams used as test inputs -/

/-- A row constructor for small test streams: only the vane angle and the
temperature carry values; every other sensor column is missing. -/
def mkRow (t : Nat) (name : String) (va ot : Option ℚ) : ScadaRow :=
  { date_time := t, wind_turbine_name := name, ba_avg := none, p_avg := none,
    ws_avg := none, va_avg := va, ot_avg := ot, ya_avg := none, wa_avg := none,
    energy_kwh := none }

/-- A turbine id occurring in the asset table of the dataset. -/
def turbineA : String := "R80711"

/-- Another turbine id of the dataset. -/
def turbineB : String := "R80721"

/-! ## Auxiliary lemmas -/

theorem normAngle_shift_bounds (x : ℚ) :
    0 ≤ x - 360 * ⌊x / 360⌋ ∧ x - 360 * ⌊x / 360⌋ < 360 := by
  have h1 : ((⌊x / 360⌋ : ℤ) : ℚ) ≤ x / 360 := Int.floor_le _
  have h2 : x / 360 < ⌊x / 360⌋ + 1 := Int.lt_floor_add_one _
  constructor
  · linarith
  · linarith

theorem normAngle_range (x : ℚ) : -180 < normAngle x ∧ normAngle x ≤ 180 := by
  obtain ⟨h0, h1⟩ := normAngle_shift_bounds x
  rw [normAngle]
  by_cases hgt : x - 360 * ⌊x / 360⌋ > 180
  · rw [if_pos hgt]
    constructor
    · linarith
    · linarith
  · rw [if_neg hgt]
    constructor
    · linarith
    · linarith

theorem normAngle_fixed {v : ℚ} (h1 : -180 < v) (h2 : v ≤ 180) : normAngle v = v := by
  rcases le_or_lt 0 v with h0 | h0
  · have hf : ⌊v / 360⌋ = 0 := by
      rw [Int.floor_eq_iff]
      constructor
      · push_cast
        positivity
      · push_cast
        linarith
    rw [normAngle, hf]
    push_cast
    rw [if_neg (by linarith)]
    ring
  · have hf : ⌊v / 360⌋ = -1 := by
      rw [Int.floor_eq_iff]
      constructor
      · push_cast
        linarith
      · push_cast
        linarith
    rw [normAngle, hf]
    push_cast
    rw [if_pos (by linarith)]
    ring

/-! ## C5: the angle normalizer is range-closed and idempotent -/

/-- C5. The output of the angle normalizer of lines 60-62 (reduce modulo
360 into `[0, 360)`, then subtract 360 from values above 180) always lies
in the half-open interval `(-180, 180]`, the normalizer is idempotent, and
it sends 370 to 10 and 190 to -170. -/
theorem angle_normalizer_range_closed_idempotent :
    (∀ x : ℚ, -180 < normAngle x ∧ normAngle x ≤ 180
        ∧ normAngle (normAngle x) = normAngle x)
    ∧ normAngle 370 = 10 ∧ normAngle 190 = -170 := by
  refine ⟨fun x => ?_, ?_, ?_⟩
  · obtain ⟨ha, hb⟩ := normAngle_range x
    exact ⟨ha, hb, normAngle_fixed ha hb⟩
  · rw [normAngle, show ⌊(370 : ℚ) / 360⌋ = 1 from by rw [Int.floor_eq_iff]; norm_num]
    norm_num
  · rw [normAngle, show ⌊(190 : ℚ) / 360⌋ = 0 from by rw [Int.floor_eq_iff]; norm_num]
    norm_num

/-! ## C7: energy integration is linear in power -/

/-- C7. Interval energy is power times the fixed interval duration under
the configured unit scale, hence linear: doubling the power doubles both
the generic conversion result and the `energy_kwh` value of line 65, and
zero power yields zero energy. -/
theorem energy_integration_linear :
    (∀ p d : ℚ, convert_power_to_energy p d = p * d)
    ∧ (∀ p d : ℚ, convert_power_to_energy (2 * p) d = 2 * convert_power_to_energy p d)
    ∧ (∀ d : ℚ, convert_power_to_energy 0 d = 0)
    ∧ (∀ p : ℚ, energyKwhOfPower (2 * p) = 2 * energyKwhOfPower p)
    ∧ energyKwhOfPower 0 = 0 := by
  refine ⟨fun p d => rfl, fun p d => ?_, fun d => ?_, fun p => ?_, ?_⟩
  · rw [convert_power_to_energy, convert_power_to_energy]
    ring
  · rw [convert_power_to_energy]
    ring
  · rw [energyKwhOfPower, energyKwhOfPower, convert_power_to_energy, convert_power_to_energy]
    ring
  · rw [energyKwhOfPower, convert_power_to_energy]
    ring

/-! ## C9: archive extraction is idempotent -/

/-- C9. When the extraction directory already exists, `_extract_data`
leaves the filesystem unchanged; extraction happens exactly when the
directory is absent, and running the step twice equals running it once. -/
theorem extract_data_idempotent (fs : FileSystem) :
    (fs.dirExists = true → extract_data fs = fs)
    ∧ (fs.dirExists = false → extract_data fs =
        { dirExists := true, dirContents := fs.zipContents, zipContents := fs.zipContents })
    ∧ extract_data (extract_data fs) = extract_data fs := by
  refine ⟨fun h => ?_, fun h => ?_, ?_⟩
  · rw [extract_data, if_pos h]
  · rw [extract_data, if_neg (by rw [h]; exact Bool.false_ne_true)]
  · by_cases h : fs.dirExists
    · simp [extract_data, h]
    · simp [extract_data, h]

/-- Witness for C9 at a concrete filesystem state: the directory exists,
so extraction changes nothing. -/
theorem extract_data_idempotent_witness :
    let fs : FileSystem :=
      { dirExists := true, dirContents := [], zipContents := [] }
    fs.dirExists = true ∧ extract_data fs = fs := by
  exact ⟨rfl, (extract_data_idempotent _).1 rfl⟩

/-! ## C1: what the temperature range filter actually does to a row -/

theorem otInRange_eq_true (r : ScadaRow) :
    otInRange r = true ↔ ∃ t, r.ot_avg = some t ∧ -15 ≤ t ∧ t ≤ 45 := by
  rw [otInRange]
  cases h : r.ot_avg with
  | none => simp
  | some t =>
    rw [Bool.and_eq_true, decide_eq_true_iff, decide_eq_true_iff]
    constructor
    · rintro ⟨h1, h2⟩
      exact ⟨t, rfl, h1, h2⟩
    · rintro ⟨u, hu, h1, h2⟩
      cases hu
      exact ⟨h1, h2⟩

/-- A row with an out-of-range 50 degree temperature and a present vane
reading. -/
def rowHot : ScadaRow := mkRow 0 turbineA (some 2) (some 50)

/-- A row with an in-range 44.9 degree temperature. -/
def rowWarm : ScadaRow := mkRow 1 turbineA (some 3) (some (449 / 10))

/-- Counterexample to C1 as stated. The claim says a 50 degree reading is
replaced by a missing-value marker while the rest of its row is retained;
line 47 instead removes the whole row: filtering the one-row stream
`[rowHot]` leaves nothing, so no row with a nulled temperature cell (or any
of `rowHot`'s other sensor values) survives. -/
theorem range_filter_deletes_hot_row :
    rangeFilterOt [rowHot] = [] ∧ rowHot.va_avg = some 2 := by
  constructor
  · rfl
  · rfl

/-- C1 (amended). The range filter of line 47 keeps exactly the rows whose
temperature reading exists and lies in the inclusive range `[-15, 45]`,
removing every other row wholly rather than nulling its temperature cell;
kept rows are unchanged. In particular a 44.9 degree row passes unchanged
while a 50 degree row is deleted. -/
theorem range_filter_spec (rows : List ScadaRow) (r : ScadaRow) :
    (r ∈ rangeFilterOt rows ↔ r ∈ rows ∧ ∃ t, r.ot_avg = some t ∧ -15 ≤ t ∧ t ≤ 45)
    ∧ rangeFilterOt [rowHot, rowWarm] = [rowWarm] := by
  constructor
  · rw [rangeFilterOt, List.mem_filter, otInRange_eq_true]
  · simp only [rangeFilterOt, List.filter, rowHot, rowWarm, mkRow, otInRange]
    norm_num

/-- Witness for C1 (amended) at concrete rows: the 44.9 degree row is a
member of the filtered stream and is retained as-is. -/
theorem range_filter_spec_witness :
    rowWarm ∈ rangeFilterOt [rowHot, rowWarm]
    ∧ rangeFilterOt [rowHot, rowWarm] = [rowWarm] := by
  refine ⟨?_, (range_filter_spec [rowHot, rowWarm] rowWarm).2⟩
  rw [(range_filter_spec [rowHot, rowWarm] rowWarm).1]
  refine ⟨by simp, 449 / 10, rfl, by norm_num, by norm_num⟩

/-! ## C10: a missing temperature drops the whole row -/

/-- A row whose temperature reading is missing but whose other sensor
fields are present. -/
def rowNoTemp : ScadaRow :=
  { date_time := 2, wind_turbine_name := turbineA, ba_avg := some 1,
    p_avg := some 100, ws_avg := some 6, va_avg := some 3, ot_avg := none,
    ya_avg := some 4, wa_avg := some 5, energy_kwh := none }

/-- C10. A record whose ambient temperature is missing (`NaN`) satisfies
neither inclusive bound of the line 47 mask, so the range-filter step
removes the whole record from the stream: it never appears in the output,
with all its other sensor fields, rather than being kept with a null
temperature cell. -/
theorem range_filter_drops_missing_temperature (rows : List ScadaRow) (r : ScadaRow)
    (h : r.ot_avg = none) : r ∉ rangeFilterOt rows := by
  intro hmem
  rw [rangeFilterOt, List.mem_filter] at hmem
  rw [otInRange_eq_true] at hmem
  obtain ⟨-, t, ht, -⟩ := hmem
  rw [h] at ht
  exact Option.noConfusion ht

/-- Witness for C10: the concrete row with a missing temperature and six
present sensor values is gone from the filtered stream entirely. -/
theorem range_filter_drops_missing_temperature_witness :
    rowNoTemp.ot_avg = none ∧ rowNoTemp ∉ rangeFilterOt [rowNoTemp] := by
  exact ⟨rfl, range_filter_drops_missing_temperature [rowNoTemp] rowNoTemp rfl⟩

/-! ## C6: deduplication on the (entity, timestamp) key -/

section Dedup

variable {α κ : Type} [DecidableEq κ] (key : α → κ)

theorem dedupGo_avoids_seen :
    ∀ (seen : List κ) (xs : List α) (y : α), y ∈ dedupGo key seen xs → key y ∉ seen := by
  intro seen xs
  induction xs generalizing seen with
  | nil => intro y hy; exact absurd hy (List.not_mem_nil y)
  | cons x xs ih =>
    intro y hy
    rw [dedupGo] at hy
    by_cases hx : key x ∈ seen
    · rw [if_pos hx] at hy
      exact ih seen y hy
    · rw [if_neg hx] at hy
      rcases List.mem_cons.mp hy with h | h
      · cases h; exact hx
      · intro hseen
        exact ih (key x :: seen) y h (List.mem_cons_of_mem _ hseen)

theorem dedupGo_sublist :
    ∀ (seen : List κ) (xs : List α), List.Sublist (dedupGo key seen xs) xs := by
  intro seen xs
  induction xs generalizing seen with
  | nil => exact List.Sublist.refl []
  | cons x xs ih =>
    rw [dedupGo]
    by_cases hx : key x ∈ seen
    · rw [if_pos hx]
      exact List.Sublist.cons x (ih seen)
    · rw [if_neg hx]
      exact List.Sublist.cons₂ x (ih (key x :: seen))

theorem dedupGo_eq_self :
    ∀ (seen : List κ) (xs : List α), (∀ x ∈ xs, key x ∉ seen) →
      (xs.map key).Nodup → dedupGo key seen xs = xs := by
  intro seen xs
  induction xs generalizing seen with
  | nil => intro _ _; rfl
  | cons x xs ih =>
    intro hseen hnd
    rw [List.map_cons, List.nodup_cons] at hnd
    rw [dedupGo, if_neg (hseen x (List.mem_cons_self x xs))]
    rw [ih (key x :: seen) ?_ hnd.2]
    intro z hz
    rw [List.mem_cons]
    rintro (h | h)
    · exact hnd.1 (h ▸ List.mem_map_of_mem key hz)
    · exact hseen z (List.mem_cons_of_mem x hz) h

theorem dedupGo_nodup :
    ∀ (seen : List κ) (xs : List α), ((dedupGo key seen xs).map key).Nodup := by
  intro seen xs
  induction xs generalizing seen with
  | nil => exact List.nodup_nil
  | cons x xs ih =>
    rw [dedupGo]
    by_cases hx : key x ∈ seen
    · rw [if_pos hx]; exact ih seen
    · rw [if_neg hx]
      rw [List.map_cons, List.nodup_cons]
      refine ⟨?_, ih (key x :: seen)⟩
      intro hmem
      obtain ⟨y, hy, hky⟩ := List.mem_map.mp hmem
      exact dedupGo_avoids_seen key (key x :: seen) xs y hy (hky ▸ List.mem_cons_self _ _)

theorem dedupGo_find? :
    ∀ (seen : List κ) (xs : List α) (y : α), y ∈ dedupGo key seen xs →
      xs.find? (fun z => decide (key z = key y)) = some y := by
  intro seen xs
  induction xs generalizing seen with
  | nil => intro y hy; exact absurd hy (List.not_mem_nil y)
  | cons x xs ih =>
    intro y hy
    rw [dedupGo] at hy
    by_cases hx : key x ∈ seen
    · rw [if_pos hx] at hy
      have hk : key y ∉ seen := dedupGo_avoids_seen key seen xs y hy
      have hne : key x ≠ key y := fun h => hk (h ▸ hx)
      rw [List.find?_cons_of_neg _ (by simpa using hne), ih seen y hy]
    · rw [if_neg hx] at hy
      rcases List.mem_cons.mp hy with h | h
      · cases h
        rw [List.find?_cons_of_pos _ (by simp)]
      · have hk : key y ∉ key x :: seen := dedupGo_avoids_seen key _ xs y h
        have hne : key x ≠ key y := fun he => hk (he ▸ List.mem_cons_self _ _)
        rw [List.find?_cons_of_neg _ (by simpa using hne), ih (key x :: seen) y h]

theorem dedupGo_countP (k : κ) :
    ∀ (seen : List κ) (xs : List α),
      (dedupGo key seen xs).countP (fun y => decide (key y = k)) =
        if k ∈ xs.map key ∧ k ∉ seen then 1 else 0 := by
  intro seen xs
  induction xs generalizing seen with
  | nil => simp [dedupGo]
  | cons x xs ih =>
    rw [dedupGo]
    by_cases hx : key x ∈ seen
    · rw [if_pos hx, ih seen, List.map_cons]
      by_cases hks : k ∈ seen
      · simp [hks]
      · by_cases hkx : k = key x
        · subst hkx; exact absurd hx hks
        · simp [hks, hkx]
    · rw [if_neg hx, List.countP_cons, ih (key x :: seen), List.map_cons]
      by_cases hkx : k = key x
      · subst hkx
        simp [hx, List.mem_cons]
      · by_cases hks : k ∈ seen
        · simp [hks, List.mem_cons, Ne.symm hkx, hkx]
        · simp [hks, List.mem_cons, Ne.symm hkx, hkx]

end Dedup

/-- C6. Deduplication on the `(Date_time, Wind_turbine_name)` key of line
44: the output is a subsequence of the input (ties broken by input order);
every retained record is the first record of the stream bearing its key;
each key present in the input is represented exactly once; the operation
is idempotent; and a stream with no duplicate keys is returned unchanged,
with no error path. -/
theorem scada_dedup_spec (xs : List ScadaRow) :
    List.Sublist (drop_duplicates scadaKey xs) xs
    ∧ (∀ y ∈ drop_duplicates scadaKey xs,
        xs.find? (fun z => decide (scadaKey z = scadaKey y)) = some y)
    ∧ (∀ k : Nat × String,
        (drop_duplicates scadaKey xs).countP (fun y => decide (scadaKey y = k)) =
          if k ∈ xs.map scadaKey then 1 else 0)
    ∧ drop_duplicates scadaKey (drop_duplicates scadaKey xs) = drop_duplicates scadaKey xs
    ∧ ((xs.map scadaKey).Nodup → drop_duplicates scadaKey xs = xs) := by
  refine ⟨dedupGo_sublist scadaKey [] xs, ?_, ?_, ?_, ?_⟩
  · intro y hy
    exact dedupGo_find? scadaKey [] xs y hy
  · intro k
    rw [drop_duplicates, dedupGo_countP scadaKey k [] xs]
    simp
  · rw [drop_duplicates, drop_duplicates]
    exact dedupGo_eq_self scadaKey [] (dedupGo scadaKey [] xs)
      (fun x _ => List.not_mem_nil (scadaKey x))
      (dedupGo_nodup scadaKey [] xs)
  · intro hnd
    exact dedupGo_eq_self scadaKey [] xs (fun x _ => List.not_mem_nil (scadaKey x)) hnd

/-- A two-element stream that duplicates the key of `rowWarm` with a
different vane value. -/
def rowWarmDup : ScadaRow := mkRow 1 turbineA (some 9) (some 30)

/-- Witness for C6 at a concrete stream with one duplicated key: the first
record of the key wins, and re-running deduplication on the already
deduplicated stream changes nothing. -/
theorem scada_dedup_spec_witness :
    [rowWarm, rowWarmDup].find?
        (fun z => decide (scadaKey z = scadaKey rowWarm)) = some rowWarm
    ∧ drop_duplicates scadaKey (drop_duplicates scadaKey [rowWarm, rowWarmDup])
        = drop_duplicates scadaKey [rowWarm, rowWarmDup]
    ∧ (([rowHot].map scadaKey).Nodup → drop_duplicates scadaKey [rowHot] = [rowHot]) := by
  refine ⟨?_, (scada_dedup_spec [rowWarm, rowWarmDup]).2.2.2.1,
    (scada_dedup_spec [rowHot]).2.2.2.2⟩
  refine (scada_dedup_spec [rowWarm, rowWarmDup]).2.1 rowWarm ?_
  rw [show drop_duplicates scadaKey [rowWarm, rowWarmDup] = [rowWarm] from rfl]
  exact List.mem_singleton.mpr rfl

/-! ## C3: run behaviour of the stuck-sensor detector -/

theorem flaggedAt_elim {α : Type} (eq : α → α → Bool) (w : Nat) (xs : List α) (i : Nat)
    (h : flaggedAt eq w xs i = true) :
    ∃ j, j + w ≤ xs.length ∧ allEqBy eq ((xs.drop j).take w) = true
      ∧ j ≤ i ∧ i < j + w := by
  rw [flaggedAt, List.any_eq_true] at h
  obtain ⟨j, -, hc⟩ := h
  rw [Bool.and_eq_true, Bool.and_eq_true] at hc
  obtain ⟨⟨hw, hle⟩, hlt⟩ := hc
  rw [constWindow, Bool.and_eq_true] at hw
  exact ⟨j, by simpa using hw.1, hw.2, by simpa using hle, by simpa using hlt⟩

theorem flaggedAt_intro {α : Type} (eq : α → α → Bool) (w : Nat) (xs : List α) (i j : Nat)
    (hlen : j + w ≤ xs.length) (hconst : allEqBy eq ((xs.drop j).take w) = true)
    (hji : j ≤ i) (hiw : i < j + w) : flaggedAt eq w xs i = true := by
  rw [flaggedAt, List.any_eq_true]
  refine ⟨j, List.mem_range.mpr (by omega), ?_⟩
  rw [Bool.and_eq_true, Bool.and_eq_true, constWindow, Bool.and_eq_true]
  exact ⟨⟨⟨by simpa using hlen, hconst⟩, by simpa using hji⟩, by simpa using hiw⟩

theorem take_append_replicate {β : Type} (w : Nat) (a b : β) :
    (List.replicate w a ++ [b]).take w = List.replicate w a := by
  have h := List.take_left (List.replicate w a) [b]
  rwa [List.length_replicate] at h

theorem allEqBy_replicate_some (n : Nat) (a : ℚ) :
    allEqBy eqVal (List.replicate n (some a)) = true := by
  cases n with
  | zero => rfl
  | succ m =>
    rw [List.replicate_succ, allEqBy, List.all_eq_true]
    intro b hb
    rw [(List.mem_replicate.mp hb).2]
    simp [eqVal]

/-- C3. Behaviour of the (spec-modelled) stuck-sensor detector with
window length `w` over present samples. First, on a synthetic run of `w`
identical values followed by a differing value, exactly the `w` positions
of the run are flagged and the differing tail position is not. Second, a
run of length `w - 1` never flags any position. Third, any flagged
position of any stream lies inside a full constant window of `w`
consecutive samples, so the first `w - 1` positions can never be flagged
solely by boundary effects. -/
theorem stuck_detector_runs (w : Nat) (a b : ℚ) :
    (2 ≤ w → a ≠ b →
      (∀ i < w, flaggedAt eqVal w (List.replicate w (some a) ++ [some b]) i = true)
      ∧ flaggedAt eqVal w (List.replicate w (some a) ++ [some b]) w = false)
    ∧ (∀ i, flaggedAt eqVal w (List.replicate (w - 1) (some a)) i = false)
    ∧ (∀ (xs : List (Option ℚ)) (i : Nat), flaggedAt eqVal w xs i = true →
        ∃ j, j + w ≤ xs.length ∧ allEqBy eqVal ((xs.drop j).take w) = true
          ∧ j ≤ i ∧ i < j + w) := by
  refine ⟨fun h2 hab => ⟨fun i hi => ?_, ?_⟩, fun i => ?_, fun xs i h => flaggedAt_elim _ _ _ _ h⟩
  · refine flaggedAt_intro eqVal w _ i 0 ?_ ?_ (Nat.zero_le i) (by omega)
    · rw [List.length_append, List.length_replicate, List.length_singleton]
      omega
    · rw [List.drop_zero, take_append_replicate]
      exact allEqBy_replicate_some w a
  · rcases Bool.eq_false_or_eq_true
      (flaggedAt eqVal w (List.replicate w (some a) ++ [some b]) w) with hf | hf
    swap
    · exact hf
    exfalso
    obtain ⟨j, hlen, hconst, hji, hiw⟩ := flaggedAt_elim _ _ _ _ hf
    rw [List.length_append, List.length_replicate, List.length_singleton] at hlen
    have hj1 : j = 1 := by omega
    subst hj1
    obtain ⟨m, rfl⟩ : ∃ m, w = m + 2 := ⟨w - 2, by omega⟩
    rw [List.replicate_succ, List.cons_append, List.drop_one, List.tail_cons] at hconst
    rw [List.take_of_length_le (by
      rw [List.length_append, List.length_replicate, List.length_singleton])] at hconst
    rw [List.replicate_succ, List.cons_append, allEqBy, List.all_eq_true] at hconst
    have hb : eqVal (some a) (some b) = true :=
      hconst (some b) (List.mem_append.mpr (Or.inr (List.mem_singleton.mpr rfl)))
    rw [eqVal] at hb
    exact hab (by simpa using hb)
  · rcases Bool.eq_false_or_eq_true
      (flaggedAt eqVal w (List.replicate (w - 1) (some a)) i) with hf | hf
    swap
    · exact hf
    exfalso
    obtain ⟨j, hlen, -, hji, hiw⟩ := flaggedAt_elim _ _ _ _ hf
    rw [List.length_replicate] at hlen
    omega

/-- Witness for C3 with `w = 3` over the stream `a a a b` (`a = 0`,
`b = 1`): the last run position 2 is flagged and the differing tail
position 3 is not. -/
theorem stuck_detector_runs_witness :
    flaggedAt eqVal 3 (List.replicate 3 (some (0 : ℚ)) ++ [some (1 : ℚ)]) 2 = true
    ∧ flaggedAt eqVal 3 (List.replicate 3 (some (0 : ℚ)) ++ [some (1 : ℚ)]) 3 = false := by
  constructor
  · exact ((stuck_detector_runs 3 0 1).1 (by norm_num) (by norm_num)).1 2 (by norm_num)
  · exact ((stuck_detector_runs 3 0 1).1 (by norm_num) (by norm_num)).2

/-! ## C2: which columns the two detector passes invalidate -/

theorem unresponsive_flag_length {α : Type} (eq : α → α → Bool) (w : Nat) (xs : List α) :
    (unresponsive_flag eq w xs).length = xs.length := by
  rw [unresponsive_flag, List.length_map, List.length_range]

theorem unresponsive_flag_getElem_some {α : Type} (eq : α → α → Bool) (w : Nat)
    (xs : List α) (i : Nat) (h : i < xs.length) :
    (unresponsive_flag eq w xs)[i]? = some (flaggedAt eq w xs i) := by
  rw [unresponsive_flag, List.getElem?_map, List.getElem?_range h]
  rfl

theorem zipWith_flag_getElem (f : ScadaRow → ScadaRow) (rows : List ScadaRow)
    (flags : List Bool) (i : Nat) (r : ScadaRow) (b : Bool)
    (hr : rows[i]? = some r) (hb : flags[i]? = some b) :
    (List.zipWith (fun x c => if c then f x else x) rows flags)[i]?
      = some (if b then f r else r) := by
  rw [List.getElem?_zipWith', hr, hb]
  rfl

/-- C2 (amended). In the per-turbine loop of lines 52-57, a position
flagged by the short-window (`w = 3`) detector on the vane-angle signal
has the whole seven-column `sensor_cols` group nulled — pitch, power, wind
speed, vane angle, ambient temperature, yaw angle and wind direction, not
only the five columns named by the claim — while a position flagged only
by the long-window (`w = 20`) detector on ambient temperature has just the
temperature column nulled; flagged cells become missing values and the row
count never changes, so no row is rejected. -/
theorem stuck_nulling_group (rows : List ScadaRow) (i : Nat) (r : ScadaRow) :
    (cleanTurbine rows).length = rows.length
    ∧ ((unresponsive_flag eqVal 3 (rows.map (·.va_avg)))[i]? = some true →
        rows[i]? = some r →
        (cleanTurbine rows)[i]? = some (nullSensorCols r))
    ∧ ((unresponsive_flag eqVal 3 (rows.map (·.va_avg)))[i]? = some false →
        (unresponsive_flag eqVal 20 ((cleanVaStep rows).map (·.ot_avg)))[i]? = some true →
        rows[i]? = some r →
        (cleanTurbine rows)[i]? = some (nullOt r)) := by
  have hlenVa : (cleanVaStep rows).length = rows.length := by
    rw [cleanVaStep, List.length_zipWith, unresponsive_flag_length, List.length_map]
    exact min_self _
  refine ⟨?_, fun h3 hr => ?_, fun h3 h20 hr => ?_⟩
  · rw [cleanTurbine, cleanOtStep, List.length_zipWith, unresponsive_flag_length,
      List.length_map, min_self]
    exact hlenVa
  · have hva : (cleanVaStep rows)[i]? = some (nullSensorCols r) :=
      zipWith_flag_getElem nullSensorCols rows _ i r true hr h3
    have hi2 : i < ((cleanVaStep rows).map (·.ot_avg)).length := by
      rw [List.length_map]
      exact (List.getElem?_eq_some.mp hva).1
    rw [cleanTurbine, cleanOtStep,
      zipWith_flag_getElem nullOt (cleanVaStep rows) _ i (nullSensorCols r)
        (flaggedAt eqVal 20 ((cleanVaStep rows).map (·.ot_avg)) i) hva
        (unresponsive_flag_getElem_some eqVal 20 _ i hi2)]
    rw [show nullOt (nullSensorCols r) = nullSensorCols r from rfl, ite_self]
  · have hva : (cleanVaStep rows)[i]? = some r :=
      zipWith_flag_getElem nullSensorCols rows _ i r false hr h3
    rw [cleanTurbine, cleanOtStep,
      zipWith_flag_getElem nullOt (cleanVaStep rows) _ i r true hva h20]
    rfl

/-- A single-turbine stream with a three-sample stuck vane run whose
temperature and yaw readings are all distinct and in range. -/
def stuckVaneRows : List ScadaRow :=
  [{ date_time := 0, wind_turbine_name := turbineA, ba_avg := none, p_avg := none,
     ws_avg := none, va_avg := some 1, ot_avg := some 10, ya_avg := some 100,
     wa_avg := none, energy_kwh := none },
   { date_time := 1, wind_turbine_name := turbineA, ba_avg := none, p_avg := none,
     ws_avg := none, va_avg := some 1, ot_avg := some 11, ya_avg := some 101,
     wa_avg := none, energy_kwh := none },
   { date_time := 2, wind_turbine_name := turbineA, ba_avg := none, p_avg := none,
     ws_avg := none, va_avg := some 1, ot_avg := some 12, ya_avg := some 102,
     wa_avg := none, energy_kwh := none },
   { date_time := 3, wind_turbine_name := turbineA, ba_avg := none, p_avg := none,
     ws_avg := none, va_avg := some 5, ot_avg := some 13, ya_avg := some 103,
     wa_avg := none, energy_kwh := none }]

/-- Counterexample to C2 as stated. The claim says the vane-triggered
group is exactly pitch, power, wind speed, wind direction and vane angle,
so the distinct, in-range temperature and yaw readings of the three
flagged positions of `stuckVaneRows` would survive; line 55 nulls them
too: after the per-turbine loop, the temperature and yaw cells of
positions 0-2 are missing and only position 3 keeps its values. -/
theorem stuck_nulling_hits_temperature_and_yaw :
    (cleanTurbine stuckVaneRows).map (·.ot_avg) = [none, none, none, some 13]
    ∧ (cleanTurbine stuckVaneRows).map (·.ya_avg) = [none, none, none, some 103] := by
  constructor
  · rfl
  · rfl

/-- A single-turbine stream of 21 samples whose vane readings all differ
while the temperature is stuck at 7 for the first 20 samples. -/
def stuckTempRows : List ScadaRow :=
  (List.range 21).map fun n =>
    { date_time := n, wind_turbine_name := turbineA, ba_avg := none, p_avg := none,
      ws_avg := none, va_avg := some (n : ℚ), ot_avg := some (if n < 20 then 7 else 8),
      ya_avg := none, wa_avg := none, energy_kwh := none }

/-- Witness for C2 (amended) at concrete streams: position 0 of the stuck
vane run gets the whole sensor group nulled, and position 0 of the
20-sample stuck temperature run gets only its temperature nulled. -/
theorem stuck_nulling_group_witness :
    (cleanTurbine stuckVaneRows)[0]? = some (nullSensorCols
      { date_time := 0, wind_turbine_name := turbineA, ba_avg := none, p_avg := none,
        ws_avg := none, va_avg := some 1, ot_avg := some 10, ya_avg := some 100,
        wa_avg := none, energy_kwh := none })
    ∧ (cleanTurbine stuckTempRows)[0]? = some (nullOt
      { date_time := 0, wind_turbine_name := turbineA, ba_avg := none, p_avg := none,
        ws_avg := none, va_avg := some 0, ot_avg := some 7, ya_avg := none,
        wa_avg := none, energy_kwh := none }) := by
  constructor
  · exact (stuck_nulling_group stuckVaneRows 0 _).2.1 rfl rfl
  · exact (stuck_nulling_group stuckTempRows 0 _).2.2 rfl rfl rfl

/-! ## C4: regularization of the reanalysis time axes -/

theorem addWindDirection_map_datetime (wd : Option ℚ → Option ℚ → Option ℚ)
    (rows : List ReRow) :
    (addWindDirection wd rows).map (·.datetime) = rows.map (·.datetime) := by
  rw [addWindDirection, List.map_map]
  rfl

theorem asfreq1h_map_datetime (r : ReRow) (rs : List ReRow) :
    (asfreq1h (r :: rs)).map (·.datetime)
      = List.range' r.datetime ((List.getLastD rs r).datetime + 1 - r.datetime) := by
  simp only [asfreq1h]
  rw [List.map_map, List.range'_eq_map_range]
  apply List.map_congr_left
  intro k hk
  simp only [Function.comp]
  cases hf : (r :: rs).find? (fun x => x.datetime == r.datetime + k) with
  | none => rfl
  | some x =>
    have hx := List.find?_some hf
    rw [beq_iff_eq] at hx
    exact hx

theorem asfreq1h_gap_mem (r : ReRow) (rs : List ReRow) (t : Nat)
    (h0 : r.datetime ≤ t) (h1 : t ≤ (List.getLastD rs r).datetime)
    (habs : ∀ x ∈ r :: rs, x.datetime ≠ t) :
    ({ datetime := t, u_comp := none, v_comp := none } : ReRow) ∈ asfreq1h (r :: rs) := by
  simp only [asfreq1h]
  apply List.mem_map.mpr
  refine ⟨t - r.datetime, List.mem_range.mpr (by omega), ?_⟩
  have ht : r.datetime + (t - r.datetime) = t := by omega
  have hfind : (r :: rs).find?
      (fun x => x.datetime == r.datetime + (t - r.datetime)) = none := by
    rw [List.find?_eq_none]
    intro x hx
    rw [beq_iff_eq, ht]
    exact habs x hx
  rw [hfind, ht]

/-- C4 (amended). The ERA5 branch of `load_plant_data` (lines 97-105)
regularizes the stream with hourly `asfreq`: the output time axis is
exactly the consecutive hour range from the first to the last recorded
timestamp, and every hour of that range absent from the input becomes an
explicit row whose wind-vector components are missing (its derived
direction being the direction of missing components). The MERRA2 branch
performs no such regularization. -/
theorem era5_aligner_spec (wd : Option ℚ → Option ℚ → Option ℚ)
    (r : ReRow) (rs : List ReRow) :
    ((load_era5 wd (r :: rs)).map (·.datetime)
        = List.range' r.datetime ((List.getLastD rs r).datetime + 1 - r.datetime))
    ∧ (∀ t : Nat, r.datetime ≤ t → t ≤ (List.getLastD rs r).datetime →
        (∀ x ∈ r :: rs, x.datetime ≠ t) →
        ({ datetime := t, u_comp := none, v_comp := none,
           winddirection_deg := wd none none } : ReRowD) ∈ load_era5 wd (r :: rs))
    ∧ (∀ rows : List ReRow, (load_merra2 wd rows).map (·.datetime)
        = rows.map (·.datetime)) := by
  refine ⟨?_, fun t h0 h1 habs => ?_, fun rows => ?_⟩
  · rw [load_era5, addWindDirection_map_datetime, asfreq1h_map_datetime]
  · rw [load_era5, addWindDirection]
    exact List.mem_map.mpr ⟨⟨t, none, none⟩, asfreq1h_gap_mem r rs t h0 h1 habs, rfl⟩
  · rw [load_merra2, addWindDirection_map_datetime]

/-- A reanalysis stream with a declared hourly cadence and an injected
3-hour gap: hours 1 and 2 are missing between the recorded hours 0 and 3. -/
def gapRows : List ReRow := [⟨0, some 1, some 2⟩, ⟨3, some 4, some 5⟩]

/-- The wind-direction stand-in used on the concrete gap stream: the
direction of missing vector components is itself missing. -/
def wdMissing : Option ℚ → Option ℚ → Option ℚ := fun _ _ => none

/-- Counterexample to C4 as stated. The claim says every reanalysis
stream with a declared cadence gets a strictly regular time index with
explicit null rows for the gaps; the MERRA2 branch (lines 91-94) does not
regularize: loading the gapped hourly stream keeps only the two recorded
hours 0 and 3, with no rows for the missing hours 1 and 2. -/
theorem merra2_keeps_gap :
    (load_merra2 wdMissing gapRows).map (·.datetime) = [0, 3]
    ∧ (load_merra2 wdMissing gapRows).length = 2 := by
  constructor
  · rfl
  · rfl

/-- Witness for C4 (amended) on the gapped stream: the ERA5 branch yields
the full hour range 0-3 and an explicit all-missing row at hour 1. -/
theorem era5_aligner_spec_witness :
    (load_era5 wdMissing gapRows).map (·.datetime) = List.range' 0 4
    ∧ ({ datetime := 1, u_comp := none, v_comp := none,
         winddirection_deg := none } : ReRowD) ∈ load_era5 wdMissing gapRows := by
  constructor
  · exact (era5_aligner_spec wdMissing ⟨0, some 1, some 2⟩ [⟨3, some 4, some 5⟩]).1
  · exact (era5_aligner_spec wdMissing ⟨0, some 1, some 2⟩ [⟨3, some 4, some 5⟩]).2.1 1
      (by norm_num) (by decide) (by decide)

/-! ## C8: the validator owns the only terminal failures -/

theorem find?_unique_missing (assetIds : List String) :
    ∀ (ids : List String) (t : String), t ∈ ids → t ∉ assetIds →
      (∀ s ∈ ids, s ≠ t → s ∈ assetIds) →
      ids.find? (fun s => decide (s ∉ assetIds)) = some t := by
  intro ids
  induction ids with
  | nil => intro t ht _ _; exact absurd ht (List.not_mem_nil t)
  | cons i ids ih =>
    intro t ht htm hrest
    by_cases hi : i ∈ assetIds
    · have hit : i ≠ t := fun h => htm (h ▸ hi)
      rw [List.find?_cons_of_neg _ (by simp [hi])]
      refine ih t ?_ htm fun s hs hst => hrest s (List.mem_cons_of_mem i hs) hst
      rcases List.mem_cons.mp ht with h | h
      · exact absurd h.symm hit
      · exact h
    · rw [List.find?_cons_of_pos _ (by simp [hi])]
      by_cases hit : i = t
      · rw [hit]
      · exact absurd (hrest i (List.mem_cons_self i ids) hit) hi

/-- C8. The only terminal failures of the pipeline are the validator's
two errors — a schema violation naming a field or an entity
reconciliation failure naming an asset id — every stage before the
validator being a total transform that only nulls cells or drops rows;
a failing run returns no conformed dataset at all; and when the cleaned
SCADA stream mentions exactly one turbine id that the asset table lacks,
the pipeline fails with `EntityReconciliationError` naming that id. -/
theorem validator_spec :
    (∀ (raw : List ScadaRow) (assetIds : List String) (e : PlantDataError),
        load_plant_data raw assetIds = Except.error e →
          ((∃ f, e = PlantDataError.schemaViolation f)
            ∨ (∃ a, e = PlantDataError.entityReconciliationError a))
          ∧ ∀ result, load_plant_data raw assetIds ≠ Except.ok result)
    ∧ (∀ (raw : List ScadaRow) (assetIds : List String) (t : String),
        t ∈ (clean_scada raw).map (·.wind_turbine_name) →
        t ∉ assetIds →
        (∀ s ∈ (clean_scada raw).map (·.wind_turbine_name), s ≠ t → s ∈ assetIds) →
        load_plant_data raw assetIds
          = Except.error (PlantDataError.entityReconciliationError t)) := by
  constructor
  · intro raw assetIds e herr
    refine ⟨?_, fun result hok => ?_⟩
    · cases e with
      | schemaViolation f => exact Or.inl ⟨f, rfl⟩
      | entityReconciliationError a => exact Or.inr ⟨a, rfl⟩
    · rw [herr] at hok
      exact Except.noConfusion hok
  · intro raw assetIds t ht htm hrest
    rw [load_plant_data, validatePlant, reconcileEntities,
      find?_unique_missing assetIds _ t ht htm hrest]

/-- A raw single-row stream for the turbine absent from the one-entry
asset table used in the witness. -/
def rawOrphan : List ScadaRow := [mkRow 0 turbineB none (some 20)]

/-- Witness for C8: cleaning keeps the orphan row, its turbine id is
missing from the asset table, and the pipeline fails with the entity
reconciliation error naming that id. -/
theorem validator_spec_witness :
    load_plant_data rawOrphan [turbineA]
      = Except.error (PlantDataError.entityReconciliationError turbineB)
    ∧ ∀ result, load_plant_data rawOrphan [turbineA] ≠ Except.ok result := by
  have herr : load_plant_data rawOrphan [turbineA]
      = Except.error (PlantDataError.entityReconciliationError turbineB) :=
    (validator_spec).2 rawOrphan [turbineA] turbineB
      (by rw [show clean_scada rawOrphan = [mkRow 0 turbineB none (some 20)] from rfl]
          simp [mkRow])
      (by decide)
      (by rw [show clean_scada rawOrphan = [mkRow 0 turbineB none (some 20)] from rfl]
          intro s hs
          rw [show [mkRow 0 turbineB none (some 20)].map (·.wind_turbine_name)
              = [turbineB] from rfl] at hs
          rw [List.mem_singleton.mp hs]
          intro h
          exact absurd rfl h)
  exact ⟨herr, ((validator_spec).1 rawOrphan [turbineA] _ herr).2⟩

end OpenOA
